import Mathlib

/-!
Verification of the combat resolution engine of Chronicles of Aethergate.

The definitions below are a shallow embedding of the Python sources:
`src/models/player.py`, `src/models/enemy.py`, `src/engine/combat.py`,
`src/engine/victory.py` and the flee handler in `src/main.py`.
Machine integers are modelled as `Int` (Python integers are unbounded);
Python dicts keyed by strings are modelled as insertion-ordered association
lists; the ambient randomness (turn-order shuffle, the basic AI's 30% roll
and its uniform ability pick, the rogue automaton's dodge roll) is modelled
by explicit oracle parameters.
-/

namespace Aethergate

/-- Status-effect table: effect name to remaining-turns counter
(`Player.status_effects` / `Enemy.status_effects`, a Python dict in
insertion order). -/
abbrev Effects := List (String × Nat)

/-- Cooldown table: ability name to remaining turns
(`Enemy.ability_cooldowns`). -/
abbrev Cooldowns := List (String × Int)

/-- Dict assignment `d[k] = v` on an insertion-ordered association list:
overwrite in place when the key is present, append otherwise. -/
def setKeyInt (l : Cooldowns) (k : String) (v : Int) : Cooldowns :=
  if l.any (fun p => p.1 = k) then
    l.map (fun p => if p.1 = k then (k, v) else p)
  else l ++ [(k, v)]

/-- Dict assignment on a status-effect table (`d[name] = duration`). -/
def setKeyNat (l : Effects) (k : String) (v : Nat) : Effects :=
  if l.any (fun p => p.1 = k) then
    l.map (fun p => if p.1 = k then (k, v) else p)
  else l ++ [(k, v)]

/-- Protagonist state (`Player` in `src/models/player.py`); the fields the
combat core and the outcome evaluator read and write. -/
structure Player where
  hp : Int
  maxHp : Int
  focus : Int
  maxFocus : Int
  attack : Int
  defense : Int
  speed : Int
  statusEffects : Effects
  aetherCrystals : Int
  enemiesDefeated : Int
  totalDamageDealt : Int
  totalDamageTaken : Int
  visitedRooms : Finset String
  deriving DecidableEq

/-- `Player.take_damage`: actual damage is `max(1, damage - defense)`,
hp clamps at 0, and the cumulative damage-taken counter grows by the
actual damage.  Returns the updated player and the actual damage. -/
def Player.takeDamage (p : Player) (damage : Int) : Player × Int :=
  let actual := max 1 (damage - p.defense)
  ({ p with
      hp := max 0 (p.hp - actual),
      totalDamageTaken := p.totalDamageTaken + actual }, actual)

/-- `Player.heal`: hp clamps at `max_hp`; returns the updated player and
the actual amount healed. -/
def Player.heal (p : Player) (amount : Int) : Player × Int :=
  let newHp := min p.maxHp (p.hp + amount)
  ({ p with hp := newHp }, newHp - p.hp)

/-- `Player.spend_focus`: debit focus when sufficient, report success. -/
def Player.spendFocus (p : Player) (amount : Int) : Player × Bool :=
  if p.focus ≥ amount then ({ p with focus := p.focus - amount }, true)
  else (p, false)

/-- `Player.restore_focus`: focus clamps at `max_focus`. -/
def Player.restoreFocus (p : Player) (amount : Int) : Player × Int :=
  let newFocus := min p.maxFocus (p.focus + amount)
  ({ p with focus := newFocus }, newFocus - p.focus)

/-- `Player.is_alive`. -/
def Player.isAlive (p : Player) : Bool := p.hp > 0

/-- `Player.add_status_effect`: `status_effects[effect] = duration`. -/
def Player.addStatusEffect (p : Player) (effect : String) (duration : Nat) :
    Player :=
  { p with statusEffects := setKeyNat p.statusEffects effect duration }

/-- The ongoing-effect branch of `Player.update_status_effects`: a still
active `poisoned` effect deals 3 (pre-defense) damage, a still active
`regenerating` effect heals 5. -/
def Player.tickEffect (p : Player) (effect : String) : Player :=
  if effect = "poisoned" then (p.takeDamage 3).1
  else if effect = "regenerating" then (p.heal 5).1
  else p

/-- The loop body of `Player.update_status_effects`: walk the effect table
in order; each counter is decremented by 1; an effect whose decremented
counter is ≤ 0 is collected as expired, otherwise its ongoing action runs.
Returns (player after ongoing actions, surviving table, expired names). -/
def Player.runEffects : Player → Effects → Player × Effects × List String
  | p, [] => (p, [], [])
  | p, (n, d) :: rest =>
    if d ≤ 1 then
      let r := Player.runEffects p rest
      (r.1, r.2.1, n :: r.2.2)
    else
      let r := Player.runEffects (p.tickEffect n) rest
      (r.1, (n, d - 1) :: r.2.1, r.2.2)

/-- `Player.update_status_effects`: tick every effect once, drop the
expired ones, and report the expired names (printed to the console by the
source, not appended to the combat log). -/
def Player.updateStatusEffects (p : Player) : Player × List String :=
  let r := Player.runEffects p p.statusEffects
  ({ r.1 with statusEffects := r.2.1 }, r.2.2)

/-- The four behavioural variants of `src/models/enemy.py`: the base
`Enemy` class and its three subclasses. -/
inductive EnemyKind
  | base
  | clockworkSentinel
  | rogueAutomaton
  | steamGolem
  deriving DecidableEq

/-- Adversary state (`Enemy` and subclasses in `src/models/enemy.py`).
`steamPressure` is meaningful only for the `steamGolem` kind (initialised
to 3 by that subclass). -/
structure Enemy where
  kind : EnemyKind
  hp : Int
  maxHp : Int
  attack : Int
  defense : Int
  speed : Int
  focus : Int
  maxFocus : Int
  abilities : List String
  abilityCooldowns : Cooldowns
  aiPattern : String
  statusEffects : Effects
  loot : List String
  steamPressure : Int
  deriving DecidableEq

/-- `Enemy.take_damage` and its subclass overrides.  The clockwork
sentinel's armor plating subtracts an extra 2; the rogue automaton dodges
with 20% probability (the Bernoulli trial is the `dodge` oracle) and takes
0 damage on a dodge; the base class and the steam golem use the plain
formula `max(1, damage - defense)` with hp clamped at 0. -/
def Enemy.takeDamage (e : Enemy) (damage : Int) (dodge : Bool) :
    Enemy × Int :=
  match e.kind with
  | .clockworkSentinel =>
    let actual := max 1 (damage - (e.defense + 2))
    ({ e with hp := max 0 (e.hp - actual) }, actual)
  | .rogueAutomaton =>
    if dodge then (e, 0)
    else
      let actual := max 1 (damage - e.defense)
      ({ e with hp := max 0 (e.hp - actual) }, actual)
  | _ =>
    let actual := max 1 (damage - e.defense)
    ({ e with hp := max 0 (e.hp - actual) }, actual)

/-- `Enemy.heal`. -/
def Enemy.heal (e : Enemy) (amount : Int) : Enemy × Int :=
  let newHp := min e.maxHp (e.hp + amount)
  ({ e with hp := newHp }, newHp - e.hp)

/-- `Enemy.is_alive`. -/
def Enemy.isAlive (e : Enemy) : Bool := e.hp > 0

/-- `Enemy._get_ability_focus_cost`: the static cost table, default 1. -/
def abilityFocusCost (name : String) : Int :=
  if name = "power_strike" then 2
  else if name = "defensive_stance" then 1
  else if name = "quick_strike" then 1
  else if name = "energy_discharge" then 3
  else if name = "repair_self" then 2
  else if name = "berserker_rage" then 3
  else 1

/-- `Enemy._get_ability_cooldown`: the static cooldown table, default 2. -/
def abilityCooldownLength (name : String) : Int :=
  if name = "power_strike" then 2
  else if name = "defensive_stance" then 3
  else if name = "quick_strike" then 1
  else if name = "energy_discharge" then 4
  else if name = "repair_self" then 3
  else if name = "berserker_rage" then 5
  else 2

/-- Association-list lookup mirroring a Python dict read. -/
def lookupStr {α : Type} : List (String × α) → String → Option α
  | [], _ => none
  | (k, v) :: rest, key => if k = key then some v else lookupStr rest key

/-- `Enemy.can_use_ability`: catalog membership (the enemy's own ability
list), the cooldown gate, then the focus-cost gate. -/
def Enemy.canUseAbility (e : Enemy) (name : String) : Bool :=
  if name ∉ e.abilities then false
  else
    match lookupStr e.abilityCooldowns name with
    | some c => if c > 0 then false else decide (e.focus ≥ abilityFocusCost name)
    | none => decide (e.focus ≥ abilityFocusCost name)

/-- `Enemy._execute_ability`: the effect of each catalogued ability;
damage multipliers `int(attack * m)` are written as exact integer
arithmetic (the stats are non-negative integers, where Python's float
truncation coincides with integer division).  Returns the updated enemy,
the description, and the damage to be dealt to the target. -/
def Enemy.executeAbility (e : Enemy) (name : String) :
    Enemy × String × Int :=
  if name = "power_strike" then
    (e, "power strike", e.attack * 3 / 2)
  else if name = "defensive_stance" then
    ({ e with statusEffects := setKeyNat e.statusEffects "defensive" 2 },
     "defensive stance", 0)
  else if name = "quick_strike" then
    (e, "quick strike", e.attack * 4 / 5)
  else if name = "energy_discharge" then
    (e, "energy discharge", e.attack * 6 / 5)
  else if name = "repair_self" then
    ((e.heal 15).1, "emergency repairs", 0)
  else if name = "berserker_rage" then
    ({ e with statusEffects := setKeyNat e.statusEffects "berserker" 3 },
     "berserker rage", e.attack * 2)
  else
    (e, "generic ability", e.attack)

/-- `Enemy.use_ability`: reject unusable abilities with no state change;
otherwise debit the focus cost, set the ability's cooldown counter to its
configured length, and execute the ability. -/
def Enemy.useAbility (e : Enemy) (name : String) : Enemy × String × Int :=
  if ¬ e.canUseAbility name then (e, "cannot use", 0)
  else
    let e1 := { e with
      focus := e.focus - abilityFocusCost name,
      abilityCooldowns :=
        setKeyInt e.abilityCooldowns name (abilityCooldownLength name) }
    e1.executeAbility name

/-- The cooldown update at the start of `Enemy.choose_action`: decrement
every counter by 1 and delete those that reach ≤ 0. -/
def tickCooldowns (l : Cooldowns) : Cooldowns :=
  l.filterMap (fun p => if p.2 - 1 ≤ 0 then none else some (p.1, p.2 - 1))

/-- `Enemy._update_status_effects`: decrement every counter by 1, delete
the expired ones, and report their names (printed to the console by the
source). -/
def Enemy.updateStatusEffects (e : Enemy) : Enemy × List String :=
  let kept := e.statusEffects.filterMap
    (fun nd => if nd.2 ≤ 1 then none else some (nd.1, nd.2 - 1))
  let expired := (e.statusEffects.filter (fun nd => nd.2 ≤ 1)).map Prod.fst
  ({ e with statusEffects := kept }, expired)

/-- `Enemy.get_effective_attack`: berserker status raises attack by 50%. -/
def Enemy.getEffectiveAttack (e : Enemy) : Int :=
  if (lookupStr e.statusEffects "berserker").isSome then e.attack * 3 / 2
  else e.attack

/-- `Enemy.get_effective_defense`: defensive status raises defense by
50% (read by nothing in the combat path, kept for fidelity). -/
def Enemy.getEffectiveDefense (e : Enemy) : Int :=
  if (lookupStr e.statusEffects "defensive").isSome then e.defense * 3 / 2
  else e.defense

/-- An adversary action as returned by the decision engine: the dicts
`{"type": "attack"}` and `{"type": "ability", "name": n}`. -/
inductive Action
  | attack
  | ability (name : String)
  deriving DecidableEq

/-- `Enemy._aggressive_ai`. -/
def Enemy.aggressiveAi (e : Enemy) : Action :=
  if e.canUseAbility "power_strike" then .ability "power_strike"
  else if e.canUseAbility "berserker_rage" then .ability "berserker_rage"
  else .attack

/-- `Enemy._defensive_ai`.  The 30% max-hp threshold `hp < max_hp * 0.3`
is stated as the exact rational comparison `10 * hp < 3 * max_hp`. -/
def Enemy.defensiveAi (e : Enemy) : Action :=
  if 10 * e.hp < 3 * e.maxHp ∧ e.canUseAbility "repair_self" then
    .ability "repair_self"
  else if (lookupStr e.statusEffects "defensive").isNone ∧
      e.canUseAbility "defensive_stance" then
    .ability "defensive_stance"
  else .attack

/-- `Enemy._tactical_ai`; the 40% threshold is `10 * hp < 4 * max_hp`. -/
def Enemy.tacticalAi (e : Enemy) (playerHp playerFocus : Int) : Action :=
  if playerHp < 30 ∧ e.canUseAbility "power_strike" then
    .ability "power_strike"
  else if playerFocus ≥ 3 ∧ e.canUseAbility "defensive_stance" then
    .ability "defensive_stance"
  else if 10 * e.hp < 4 * e.maxHp ∧ e.canUseAbility "repair_self" then
    .ability "repair_self"
  else if 10 * e.hp < 4 * e.maxHp ∧ e.canUseAbility "berserker_rage" then
    .ability "berserker_rage"
  else .attack

/-- `Enemy._hit_and_run_ai`. -/
def Enemy.hitAndRunAi (e : Enemy) : Action :=
  if e.canUseAbility "quick_strike" then .ability "quick_strike"
  else .attack

/-- `Enemy._basic_ai`: with 30% probability (the `roll` oracle) and a
non-empty ability list, pick a uniformly random (the `pick` oracle) member
of the currently usable abilities; otherwise basic attack. -/
def Enemy.basicAi (e : Enemy) (roll : Bool) (pick : Nat) : Action :=
  if roll ∧ e.abilities ≠ [] then
    if h : (e.abilities.filter (fun a => e.canUseAbility a)) ≠ [] then
      .ability ((e.abilities.filter (fun a => e.canUseAbility a)).get
        ⟨pick % (e.abilities.filter (fun a => e.canUseAbility a)).length,
          Nat.mod_lt _ (List.length_pos.mpr h)⟩)
    else .attack
  else .attack

/-- The AI-pattern dispatch at the end of the base
`Enemy.choose_action`: one of the five mutually exclusive policies,
`basic` being the fallback pattern. -/
def Enemy.dispatchAi (e : Enemy) (playerHp playerFocus : Int)
    (roll : Bool) (pick : Nat) : Action :=
  if e.aiPattern = "aggressive" then e.aggressiveAi
  else if e.aiPattern = "defensive" then e.defensiveAi
  else if e.aiPattern = "tactical" then e.tacticalAi playerHp playerFocus
  else if e.aiPattern = "hit_and_run" then e.hitAndRunAi
  else e.basicAi roll pick

/-- The body of `Enemy.choose_action` in the base class: tick cooldowns,
tick status effects, then dispatch on the AI pattern.  Returns the updated
enemy together with the chosen action. -/
def Enemy.chooseActionBase (e : Enemy)
    (playerHp playerDefense playerFocus : Int) (roll : Bool) (pick : Nat) :
    Enemy × Action :=
  let e1 := { e with abilityCooldowns := tickCooldowns e.abilityCooldowns }
  let e2 := (e1.updateStatusEffects).1
  (e2, e2.dispatchAi playerHp playerFocus roll pick)

/-- `Enemy.choose_action` with the `SteamGolem.choose_action` override:
the golem increments its steam pressure and, once the pressure reaches 3,
resets it and returns the `steam_blast` ability directly, bypassing the
base routine (so neither cooldowns nor status effects are ticked and no
usability check runs); otherwise, and for every other kind, the base
routine runs. -/
def Enemy.chooseAction (e : Enemy)
    (playerHp playerDefense playerFocus : Int) (roll : Bool) (pick : Nat) :
    Enemy × Action :=
  match e.kind with
  | .steamGolem =>
    let e1 := { e with steamPressure := e.steamPressure + 1 }
    if e1.steamPressure ≥ (3 : Int) then
      ({ e1 with steamPressure := 0 }, .ability "steam_blast")
    else e1.chooseActionBase playerHp playerDefense playerFocus roll pick
  | _ => e.chooseActionBase playerHp playerDefense playerFocus roll pick

/-- Encounter state (`CombatEngine` in `src/engine/combat.py`). -/
structure Combat where
  player : Player
  enemy : Enemy
  turnQueue : List String
  currentTurn : Nat
  combatLog : List String
  combatActive : Bool
  deriving DecidableEq

/-- `CombatEngine._setup_turn_order`: the faster side goes first (the
protagonist on ties), then on an exact speed tie the two-element queue is
shuffled — the shuffle outcome is the `swap` oracle. -/
def setupTurnOrder (playerSpeed enemySpeed : Int) (swap : Bool) :
    List String :=
  let q := if playerSpeed ≥ enemySpeed then ["player", "enemy"]
           else ["enemy", "player"]
  if playerSpeed = enemySpeed then (if swap then q.reverse else q) else q

/-- `CombatEngine.get_current_turn`. -/
def Combat.getCurrentTurn (c : Combat) : String :=
  if ¬ c.combatActive then "none"
  else c.turnQueue.getD (c.currentTurn % c.turnQueue.length) ""

/-- `CombatEngine.is_player_turn`. -/
def Combat.isPlayerTurn (c : Combat) : Bool :=
  c.getCurrentTurn = "player"

/-- `CombatEngine.is_combat_over`. -/
def Combat.isCombatOver (c : Combat) : Bool :=
  ¬ c.combatActive ∨ ¬ c.player.isAlive ∨ ¬ c.enemy.isAlive

/-- `CombatEngine.get_winner`: `None` while combat is still running, then
`"player"` if the protagonist is alive, else `"enemy"` if the adversary is
alive, else `"draw"`. -/
def Combat.getWinner (c : Combat) : Option String :=
  if ¬ c.isCombatOver then none
  else if c.player.isAlive then some "player"
  else if c.enemy.isAlive then some "enemy"
  else some "draw"

/-- `CombatEngine.log_message`. -/
def Combat.logMessage (c : Combat) (message : String) : Combat :=
  { c with combatLog := c.combatLog ++ [message] }

/-- `CombatEngine._handle_victory`: log the defeat, credit the
protagonist's defeated-enemies counter, and log non-empty loot. -/
def Combat.handleVictory (c : Combat) : Combat :=
  let c1 := c.logMessage "enemy defeated"
  let c2 := { c1 with player :=
    { c1.player with enemiesDefeated := c1.player.enemiesDefeated + 1 } }
  if c2.enemy.loot ≠ [] then c2.logMessage "loot dropped" else c2

/-- `CombatEngine._end_turn`: tick both combatants' status effects, then
evaluate termination — protagonist dead first (combat concluded, defeat
logged), then adversary dead (combat concluded, victory handling),
otherwise advance the turn counter. -/
def Combat.endTurn (c : Combat) : Combat :=
  let p := (c.player.updateStatusEffects).1
  let e := (c.enemy.updateStatusEffects).1
  let c1 := { c with player := p, enemy := e }
  if ¬ p.isAlive then
    { c1 with combatActive := false }.logMessage "player defeated"
  else if ¬ e.isAlive then
    { c1 with combatActive := false }.handleVictory
  else
    { c1 with currentTurn := c1.currentTurn + 1 }

/-- `CombatEngine.player_attack`: turn-ownership check, then the basic
attack against the adversary (with the rogue automaton's `dodge` oracle),
damage-dealt accounting, a log line, and the end-of-turn phase. -/
def Combat.playerAttack (c : Combat) (dodge : Bool) : Combat × String :=
  if ¬ c.isPlayerTurn then (c, "Not your turn!")
  else
    let r := c.enemy.takeDamage c.player.attack dodge
    let p := { c.player with
      totalDamageDealt := c.player.totalDamageDealt + r.2 }
    let message := "player attacks"
    (({ c with player := p, enemy := r.1 }.logMessage message).endTurn,
     message)

/-- The protagonist ability table local to
`CombatEngine.player_use_ability`: focus cost and damage multiplier
(numerator over 10); `heal` restores 25 hp, `defensive_stance` applies the
defensive status for 2 turns. -/
def playerAbilityFocusCost (name : String) : Option Int :=
  if name = "power_strike" then some 2
  else if name = "defensive_stance" then some 1
  else if name = "aether_blast" then some 3
  else if name = "heal" then some 2
  else none

/-- The failure message of `CombatEngine.player_use_ability` when focus is
insufficient: it names the cost and the current focus. -/
def insufficientFocusMessage (cost focus : Int) : String :=
  "Not enough focus! Need " ++ toString cost ++ ", have " ++ toString focus

/-- `CombatEngine.player_use_ability`: turn-ownership check, catalog
lookup, focus debit via `Player.spend_focus` (rejecting with no state
change on a shortfall), then the ability's effect, a log line, and the
end-of-turn phase.  Damage multipliers 1.5 and 1.3 are written as exact
arithmetic over tenths. -/
def Combat.playerUseAbility (c : Combat) (name : String) (dodge : Bool) :
    Combat × String :=
  if ¬ c.isPlayerTurn then (c, "Not your turn!")
  else
    match playerAbilityFocusCost name with
    | none => (c, "Unknown ability: " ++ name)
    | some cost =>
      let rf := c.player.spendFocus cost
      if ¬ rf.2 then (c, insufficientFocusMessage cost c.player.focus)
      else
        let c1 := { c with player := rf.1 }
        if name = "heal" then
          let rh := c1.player.heal 25
          let message := "self heal"
          ((({ c1 with player := rh.1 }).logMessage message).endTurn, message)
        else if name = "defensive_stance" then
          let p2 := c1.player.addStatusEffect "defensive" 2
          let message := "defensive stance"
          ((({ c1 with player := p2 }).logMessage message).endTurn, message)
        else
          let mult : Int := if name = "power_strike" then 15 else 13
          let damage := c1.player.attack * mult / 10
          let rd := c1.enemy.takeDamage damage dodge
          let p2 := { c1.player with
            totalDamageDealt := c1.player.totalDamageDealt + rd.2 }
          let message := "ability damage"
          ((({ c1 with player := p2, enemy := rd.1 }).logMessage
            message).endTurn, message)

/-- `CombatEngine.enemy_turn`: turn-ownership check, adversary decision
(`Enemy.choose_action` with the `roll`/`pick` oracles), then either the
basic attack at effective attack power, or the chosen ability (damaging
abilities hit the protagonist), a log line, and the end-of-turn phase. -/
def Combat.enemyTurn (c : Combat) (roll : Bool) (pick : Nat) :
    Combat × String :=
  if c.getCurrentTurn ≠ "enemy" then (c, "")
  else
    let ra := c.enemy.chooseAction c.player.hp c.player.defense
      c.player.focus roll pick
    match ra.2 with
    | .attack =>
      let damage := ra.1.getEffectiveAttack
      let rp := c.player.takeDamage damage
      let message := "enemy attacks"
      ((({ c with player := rp.1, enemy := ra.1 }).logMessage
        message).endTurn, message)
    | .ability name =>
      let ru := ra.1.useAbility name
      if ru.2.2 > 0 then
        let rp := c.player.takeDamage ru.2.2
        let message := "enemy ability damage"
        ((({ c with player := rp.1, enemy := ru.1 }).logMessage
          message).endTurn, message)
      else
        ((({ c with enemy := ru.1 }).logMessage ru.2.1).endTurn, ru.2.1)

/-- Modelled from `src/main.py` (`GameController._combat_flee`, lines
364–367): the flee handler lives in the surrounding application, not in
the combat core; it appends a UI-side log line, marks the UI combat
session as `"fled"`, and discards the engine object — the `CombatEngine`
state itself is never mutated and no engine transition runs.  Returns the
(untouched) engine state and the UI-session outcome tag. -/
def combatFlee (c : Combat) : Combat × String := (c, "fled")

/-- The fixed required-location set of
`VictoryManager.victory_conditions` (`src/engine/victory.py`). -/
def requiredRooms : List String := ["entrance", "hallway", "laboratory", "armory"]

/-- `VictoryManager.check_victory_conditions`: builds the achievement list
in source order — `Crystal Master` (crystals ≥ 3), `Explorer` (required
rooms all visited), `Warrior` (enemies defeated ≥ 2), `Untouchable` (total
damage taken = 0), `Tactical Genius` (total damage taken < 20), `Thorough
Explorer` (number of distinct visited rooms ≥ 4) — then returns
`(has_won, victory_type, achievements)` where `has_won` is the primary
crystal condition and, on a win, `victory_type` is `"complete"` when at
least 3 achievements hold and `"standard"` otherwise. -/
def checkVictoryConditions (p : Player) :
    Bool × String × List String :=
  let a1 : List String :=
    if p.aetherCrystals ≥ 3 then ["Crystal Master"] else []
  let a2 := a1 ++
    (if requiredRooms.all (fun r => r ∈ p.visitedRooms) then ["Explorer"]
     else [])
  let a3 := a2 ++
    (if p.enemiesDefeated ≥ 2 then ["Warrior"] else [])
  let a4 := a3 ++
    (if p.totalDamageTaken = 0 then ["Untouchable"] else [])
  let a5 := a4 ++
    (if p.totalDamageTaken < 20 then ["Tactical Genius"] else [])
  let achievements := a5 ++
    (if p.visitedRooms.card ≥ requiredRooms.length then
      ["Thorough Explorer"] else [])
  if p.aetherCrystals ≥ 3 then
    (true,
     (if achievements.length ≥ 3 then "complete" else "standard"),
     achievements)
  else (false, "none", achievements)

/-- `VictoryManager.check_defeat_condition`. -/
def checkDefeatCondition (p : Player) : Bool := ¬ p.isAlive

/-! ### Concrete states used by counterexamples and witnesses -/

/-- A fresh protagonist with the `Player.__init__` defaults. -/
def basePlayer : Player :=
  { hp := 100, maxHp := 100, focus := 5, maxFocus := 5, attack := 10,
    defense := 5, speed := 6, statusEffects := [], aetherCrystals := 0,
    enemiesDefeated := 0, totalDamageDealt := 0, totalDamageTaken := 0,
    visitedRooms := ∅ }

/-- A fresh base adversary with the `Enemy.__init__` defaults for an
empty template. -/
def baseEnemy : Enemy :=
  { kind := .base, hp := 20, maxHp := 20, attack := 5, defense := 1,
    speed := 3, focus := 2, maxFocus := 2, abilities := [],
    abilityCooldowns := [], aiPattern := "basic", statusEffects := [],
    loot := [], steamPressure := 3 }

/-- A concrete clockwork sentinel (hp 10, defense 1). -/
def sentinelEnemy : Enemy :=
  { baseEnemy with kind := .clockworkSentinel, hp := 10, maxHp := 10 }

/-- A concrete rogue automaton. -/
def rogueEnemy : Enemy :=
  { baseEnemy with kind := .rogueAutomaton }

/-- A concrete steam golem with no abilities, no focus, and pressure 2
(one step from a pressure release). -/
def golemEnemy : Enemy :=
  { baseEnemy with kind := .steamGolem, focus := 0, steamPressure := 2 }

/-! ### C2 — damage formula per combatant -/

/-- C2 counterexample: the claim says every combatant's `take_damage`
returns `max(1, damage − defense)`, but the clockwork sentinel's armor
plating subtracts an extra 2: at `damage = 5`, `defense = 1` it returns 2,
not `max(1, 5 − 1) = 4`. -/
theorem takeDamage_uniform_formula_counterexample :
    (sentinelEnemy.takeDamage 5 false).2 = 2 ∧
    sentinelEnemy.defense = 1 ∧
    max 1 ((5 : Int) - 1) = 4 := by decide

/-- C2 (amended): the protagonist and the base/steam-golem adversaries
take `max(1, damage − defense)`; the clockwork sentinel takes
`max(1, damage − (defense + 2))`; the rogue automaton takes 0 on a dodge
and the base amount otherwise; in every case the new hp is the old hp
minus the actual damage clamped at 0 (unchanged on a dodge), so hp never
drops below 0. -/
theorem takeDamage_spec (p : Player) (e : Enemy) (damage : Int)
    (dodge : Bool) :
    ((p.takeDamage damage).2 = max 1 (damage - p.defense) ∧
      (p.takeDamage damage).1.hp =
        max 0 (p.hp - max 1 (damage - p.defense)) ∧
      0 ≤ (p.takeDamage damage).1.hp) ∧
    ((e.kind = .base ∨ e.kind = .steamGolem) →
      (e.takeDamage damage dodge).2 = max 1 (damage - e.defense) ∧
      (e.takeDamage damage dodge).1.hp =
        max 0 (e.hp - max 1 (damage - e.defense))) ∧
    (e.kind = .clockworkSentinel →
      (e.takeDamage damage dodge).2 = max 1 (damage - (e.defense + 2)) ∧
      (e.takeDamage damage dodge).1.hp =
        max 0 (e.hp - max 1 (damage - (e.defense + 2)))) ∧
    (e.kind = .rogueAutomaton →
      (dodge = true → (e.takeDamage damage dodge).2 = 0 ∧
        (e.takeDamage damage dodge).1.hp = e.hp) ∧
      (dodge = false →
        (e.takeDamage damage dodge).2 = max 1 (damage - e.defense) ∧
        (e.takeDamage damage dodge).1.hp =
          max 0 (e.hp - max 1 (damage - e.defense)))) ∧
    (0 ≤ e.hp → 0 ≤ (e.takeDamage damage dodge).1.hp) := by
  refine ⟨⟨rfl, rfl, le_max_left 0 _⟩, ?_, ?_, ?_, ?_⟩
  · rintro (hk | hk) <;>
      simp [Enemy.takeDamage, hk]
  · intro hk
    simp [Enemy.takeDamage, hk]
  · intro hk
    constructor <;> intro hd <;> simp [Enemy.takeDamage, hk, hd]
  · intro hhp
    cases hk : e.kind <;> cases dodge <;>
      simp [Enemy.takeDamage, hk, hhp, le_max_left]

/-- C2 witness: the amended formula evaluated on concrete combatants —
the base adversary (damage 5, defense 1 → 4 taken), the sentinel
(damage 5 → 2 taken), and a dodging rogue automaton (0 taken). -/
theorem takeDamage_spec_witness :
    ((baseEnemy.takeDamage 5 false).2 = max 1 (5 - baseEnemy.defense) ∧
      (baseEnemy.takeDamage 5 false).1.hp =
        max 0 (baseEnemy.hp - max 1 (5 - baseEnemy.defense))) ∧
    ((sentinelEnemy.takeDamage 5 false).2 =
      max 1 (5 - (sentinelEnemy.defense + 2))) ∧
    ((rogueEnemy.takeDamage 5 true).2 = 0 ∧
      (rogueEnemy.takeDamage 5 true).1.hp = rogueEnemy.hp) :=
  ⟨(takeDamage_spec basePlayer baseEnemy 5 false).2.1 (Or.inl rfl),
   ((takeDamage_spec basePlayer sentinelEnemy 5 false).2.2.1 rfl).1,
   ((takeDamage_spec basePlayer rogueEnemy 5 true).2.2.2.1 rfl).1 rfl⟩

/-! ### C8 — turn order at encounter creation -/

/-- C8: the turn queue is always one of the two permutations of
{player, enemy}; with unequal speeds the faster side is deterministically
first; with equal speeds both permutations are reachable across shuffle
outcomes. -/
theorem setupTurnOrder_spec (playerSpeed enemySpeed : Int) (swap : Bool) :
    (setupTurnOrder playerSpeed enemySpeed swap = ["player", "enemy"] ∨
      setupTurnOrder playerSpeed enemySpeed swap = ["enemy", "player"]) ∧
    (enemySpeed < playerSpeed →
      setupTurnOrder playerSpeed enemySpeed swap = ["player", "enemy"]) ∧
    (playerSpeed < enemySpeed →
      setupTurnOrder playerSpeed enemySpeed swap = ["enemy", "player"]) ∧
    (playerSpeed = enemySpeed →
      setupTurnOrder playerSpeed enemySpeed false = ["player", "enemy"] ∧
      setupTurnOrder playerSpeed enemySpeed true = ["enemy", "player"]) := by
  refine ⟨?_, ?_, ?_, ?_⟩
  · by_cases h : playerSpeed = enemySpeed
    · cases swap <;> simp [setupTurnOrder, h]
    · by_cases h2 : enemySpeed ≤ playerSpeed <;>
        simp [setupTurnOrder, h, h2, ge_iff_le]
  · intro h
    simp [setupTurnOrder, le_of_lt h, ne_of_gt h, ge_iff_le]
  · intro h
    simp [setupTurnOrder, not_le.mpr h, ne_of_lt h, ge_iff_le]
  · intro h
    subst h
    constructor <;> simp [setupTurnOrder]

/-- C8 witness: speed 6 vs 3 puts the protagonist first; on a 3 vs 3 tie
both shuffle outcomes occur. -/
theorem setupTurnOrder_spec_witness :
    setupTurnOrder 6 3 false = ["player", "enemy"] ∧
    setupTurnOrder 3 3 false = ["player", "enemy"] ∧
    setupTurnOrder 3 3 true = ["enemy", "player"] :=
  ⟨(setupTurnOrder_spec 6 3 false).2.1 (by decide),
   ((setupTurnOrder_spec 3 3 false).2.2.2 rfl).1,
   ((setupTurnOrder_spec 3 3 true).2.2.2 rfl).2⟩

/-! ### C5 — insufficient focus rejects without mutation -/

/-- C5: a protagonist ability request whose focus cost exceeds the
current focus returns the failure message naming the cost and the current
focus, and leaves the whole combat state — focus pool, turn counter,
whose turn it is, everything — unchanged. -/
theorem playerUseAbility_insufficient_focus (c : Combat) (name : String)
    (cost : Int) (dodge : Bool)
    (hturn : c.isPlayerTurn = true)
    (hname : playerAbilityFocusCost name = some cost)
    (hfocus : c.player.focus < cost) :
    c.playerUseAbility name dodge =
      (c, insufficientFocusMessage cost c.player.focus) ∧
    (c.playerUseAbility name dodge).1.player.focus = c.player.focus ∧
    (c.playerUseAbility name dodge).1.currentTurn = c.currentTurn ∧
    (c.playerUseAbility name dodge).1.getCurrentTurn = c.getCurrentTurn ∧
    (c.playerUseAbility name dodge).1.combatLog = c.combatLog := by
  have h : c.playerUseAbility name dodge =
      (c, insufficientFocusMessage cost c.player.focus) := by
    simp [Combat.playerUseAbility, hturn, hname, Player.spendFocus,
      not_le.mpr hfocus]
  exact ⟨h, by rw [h], by rw [h], by rw [h], by rw [h]⟩

/-- A combat state at the start of the protagonist's turn, with the
protagonist down to 1 focus (the §8 scenario). -/
def lowFocusCombat : Combat :=
  { player := { basePlayer with focus := 1 }, enemy := baseEnemy,
    turnQueue := ["player", "enemy"], currentTurn := 0, combatLog := [],
    combatActive := true }

/-- C5 witness: with 1 focus, `power_strike` (cost 2) is rejected with
the message naming the shortfall and the state is untouched. -/
theorem playerUseAbility_insufficient_focus_witness :
    lowFocusCombat.playerUseAbility "power_strike" false =
      (lowFocusCombat, insufficientFocusMessage 2 1) ∧
    (lowFocusCombat.playerUseAbility "power_strike" false).1.player.focus =
      lowFocusCombat.player.focus :=
  ⟨(playerUseAbility_insufficient_focus lowFocusCombat "power_strike" 2
      false (by decide) (by decide) (by decide)).1,
   (playerUseAbility_insufficient_focus lowFocusCombat "power_strike" 2
      false (by decide) (by decide) (by decide)).2.1⟩

/-! ### C7 — fleeing -/

/-- A running encounter with both sides alive. -/
def baseCombat : Combat :=
  { player := basePlayer, enemy := baseEnemy,
    turnQueue := ["player", "enemy"], currentTurn := 0, combatLog := [],
    combatActive := true }

/-- C7 counterexample: the claim says a flee transition inside the combat
core concludes the encounter with outcome `Fled`; in the code the flee
handler lives in the application shell and leaves the engine state
entirely untouched — the encounter stays `Active` with no outcome — and
the engine has no `Fled` outcome at all: force-deactivating an encounter
with both sides alive makes `get_winner` report `"player"`, a
winner determination. -/
theorem flee_counterexample :
    (combatFlee baseCombat).1 = baseCombat ∧
    (combatFlee baseCombat).1.combatActive = true ∧
    (combatFlee baseCombat).1.getWinner = none ∧
    Combat.getWinner { baseCombat with combatActive := false } =
      some "player" := by decide

/-- C7 (amended): fleeing is handled outside the combat core — the UI
handler returns the engine state unchanged with the UI-level tag
`"fled"`, so an `Active` encounter with both sides alive still reports no
winner afterwards; the engine's own outcome set is only
{none, player, enemy, draw}, never a fled outcome. -/
theorem flee_spec (c : Combat) :
    (combatFlee c).1 = c ∧
    (combatFlee c).2 = "fled" ∧
    (c.combatActive = true → c.player.isAlive = true →
      c.enemy.isAlive = true → (combatFlee c).1.getWinner = none) ∧
    (c.getWinner = none ∨ c.getWinner = some "player" ∨
      c.getWinner = some "enemy" ∨ c.getWinner = some "draw") := by
  refine ⟨rfl, rfl, ?_, ?_⟩
  · intro ha hp he
    simp [combatFlee, Combat.getWinner, Combat.isCombatOver, ha, hp, he]
  · unfold Combat.getWinner
    split_ifs <;> simp

/-- C7 witness: fleeing from a live encounter leaves it live, winnerless,
and tagged `"fled"` only on the UI side. -/
theorem flee_spec_witness :
    (combatFlee baseCombat).1 = baseCombat ∧
    (combatFlee baseCombat).2 = "fled" ∧
    (combatFlee baseCombat).1.getWinner = none :=
  ⟨(flee_spec baseCombat).1, (flee_spec baseCombat).2.1,
   (flee_spec baseCombat).2.2.1 (by decide) (by decide) (by decide)⟩

/-! ### C9 — outcome evaluator -/

/-- Helper: the evaluator's achievement list, written out as the
concatenation of its six conditional entries. -/
theorem checkVictory_achievements (p : Player) :
    (checkVictoryConditions p).2.2 =
      (if p.aetherCrystals ≥ 3 then ["Crystal Master"] else []) ++
      (if requiredRooms.all (fun r => r ∈ p.visitedRooms) then ["Explorer"]
        else []) ++
      (if p.enemiesDefeated ≥ 2 then ["Warrior"] else []) ++
      (if p.totalDamageTaken = 0 then ["Untouchable"] else []) ++
      (if p.totalDamageTaken < 20 then ["Tactical Genius"] else []) ++
      (if p.visitedRooms.card ≥ requiredRooms.length then
        ["Thorough Explorer"] else []) := by
  unfold checkVictoryConditions
  by_cases h : p.aetherCrystals ≥ 3 <;> simp [h, List.append_assoc]

/-- Helper: membership in a conditional singleton block. -/
theorem mem_ite_singleton (c : Prop) [Decidable c] (a b : String) :
    (a ∈ (if c then [b] else [])) ↔ (a = b ∧ c) := by
  split_ifs with h <;> simp [h]

/-- Helper: visiting every required room forces at least 4 distinct
visited rooms. -/
theorem card_of_required_subset (p : Player)
    (h : requiredRooms.all (fun r => r ∈ p.visitedRooms) = true) :
    4 ≤ p.visitedRooms.card := by
  simp only [requiredRooms, List.all_cons, List.all_nil, Bool.and_eq_true,
    decide_eq_true_eq, and_true] at h
  have hs : ({"entrance", "hallway", "laboratory", "armory"} :
      Finset String) ⊆ p.visitedRooms := by
    intro x hx
    simp only [Finset.mem_insert, Finset.mem_singleton] at hx
    rcases hx with rfl | rfl | rfl | rfl
    · exact h.1
    · exact h.2.1
    · exact h.2.2.1
    · exact h.2.2.2
  have hc : ({"entrance", "hallway", "laboratory", "armory"} :
      Finset String).card = 4 := by decide
  exact hc ▸ Finset.card_le_card hs

/-- A protagonist holding 3 crystals who never moved, never fought, and
never took damage. -/
def crystalsOnlyPlayer : Player := { basePlayer with aetherCrystals := 3 }

/-- C9 counterexample: the claim says the achievement set is the union of
the four bonus predicates (here only the two damage bonuses hold, so 2
achievements and, by the claim's rule, victory type `"standard"`); the
code also awards `Crystal Master` for the primary condition itself,
returning 3 achievements and victory type `"complete"`. -/
theorem checkVictory_counterexample :
    checkVictoryConditions crystalsOnlyPlayer =
      (true, "complete", ["Crystal Master", "Untouchable",
        "Tactical Genius"]) := by decide

/-- C9 (amended): `has_won` is exactly the crystal count ≥ 3; the
achievement list consists of `Crystal Master` (the primary condition)
plus the bonus entries `Explorer`, `Warrior`, `Untouchable`,
`Tactical Genius` and `Thorough Explorer` (distinct visited rooms ≥ 4),
each present exactly when its predicate holds; on a win the victory type
is `"complete"` exactly when the total achievement count (primary
included) is ≥ 3, else `"standard"`; without a win the result is
`(false, "none", ·)`; and the 3-crystals/all-rooms/≥2-enemies/0-damage
scenario yields `(true, "complete", ·)` with at least 4 achievements. -/
theorem checkVictory_spec (p : Player) :
    ((checkVictoryConditions p).1 = true ↔ p.aetherCrystals ≥ 3) ∧
    ("Crystal Master" ∈ (checkVictoryConditions p).2.2 ↔
      p.aetherCrystals ≥ 3) ∧
    ("Explorer" ∈ (checkVictoryConditions p).2.2 ↔
      requiredRooms.all (fun r => r ∈ p.visitedRooms) = true) ∧
    ("Warrior" ∈ (checkVictoryConditions p).2.2 ↔
      p.enemiesDefeated ≥ 2) ∧
    ("Untouchable" ∈ (checkVictoryConditions p).2.2 ↔
      p.totalDamageTaken = 0) ∧
    ("Tactical Genius" ∈ (checkVictoryConditions p).2.2 ↔
      p.totalDamageTaken < 20) ∧
    ("Thorough Explorer" ∈ (checkVictoryConditions p).2.2 ↔
      p.visitedRooms.card ≥ 4) ∧
    (p.aetherCrystals ≥ 3 →
      ((checkVictoryConditions p).2.1 = "complete" ↔
        (checkVictoryConditions p).2.2.length ≥ 3) ∧
      ((checkVictoryConditions p).2.1 = "complete" ∨
        (checkVictoryConditions p).2.1 = "standard")) ∧
    (¬ p.aetherCrystals ≥ 3 → (checkVictoryConditions p).1 = false ∧
      (checkVictoryConditions p).2.1 = "none") ∧
    (p.aetherCrystals ≥ 3 →
      requiredRooms.all (fun r => r ∈ p.visitedRooms) = true →
      p.enemiesDefeated ≥ 2 → p.totalDamageTaken = 0 →
      (checkVictoryConditions p).1 = true ∧
      (checkVictoryConditions p).2.1 = "complete" ∧
      (checkVictoryConditions p).2.2.length ≥ 4) := by
  have htype : p.aetherCrystals ≥ 3 →
      (checkVictoryConditions p).2.1 =
        (if (checkVictoryConditions p).2.2.length ≥ 3 then "complete"
         else "standard") := by
    intro h
    unfold checkVictoryConditions
    simp [h]
  refine ⟨?_, ?_, ?_, ?_, ?_, ?_, ?_, ?_, ?_, ?_⟩
  · unfold checkVictoryConditions
    by_cases h : p.aetherCrystals ≥ 3 <;> simp [h]
  · rw [checkVictory_achievements]
    simp [List.mem_append, mem_ite_singleton]
  · rw [checkVictory_achievements]
    simp [List.mem_append, mem_ite_singleton]
  · rw [checkVictory_achievements]
    simp [List.mem_append, mem_ite_singleton]
  · rw [checkVictory_achievements]
    simp [List.mem_append, mem_ite_singleton]
  · rw [checkVictory_achievements]
    simp [List.mem_append, mem_ite_singleton]
  · rw [checkVictory_achievements]
    simp [List.mem_append, mem_ite_singleton, requiredRooms]
  · intro h
    rw [htype h]
    constructor
    · split_ifs with hl <;> simp [hl]
    · split_ifs <;> simp
  · intro h
    unfold checkVictoryConditions
    simp [h]
  · intro h1 h2 h3 h4
    have h5 : p.totalDamageTaken < 20 := by omega
    have h7 : 4 ≤ p.visitedRooms.card := card_of_required_subset p h2
    have h2m : "entrance" ∈ p.visitedRooms ∧ "hallway" ∈ p.visitedRooms ∧
        "laboratory" ∈ p.visitedRooms ∧ "armory" ∈ p.visitedRooms := by
      simpa [requiredRooms] using h2
    have hlen : (checkVictoryConditions p).2.2.length = 6 := by
      rw [checkVictory_achievements]
      simp [h1, h2m.1, h2m.2.1, h2m.2.2.1, h2m.2.2.2, h3, h4, h5, h7,
        requiredRooms]
    have hl3 : (checkVictoryConditions p).2.2.length ≥ 3 := by omega
    refine ⟨?_, ?_, by omega⟩
    · unfold checkVictoryConditions
      simp [h1]
    · rw [htype h1, if_pos hl3]

/-- The required-location set as a finite set of room identifiers. -/
def allRequiredRooms : Finset String :=
  {"entrance", "hallway", "laboratory", "armory"}

/-- A protagonist satisfying the full §8 victory scenario. -/
def triumphantPlayer : Player :=
  { basePlayer with
    aetherCrystals := 3, enemiesDefeated := 2,
    visitedRooms := allRequiredRooms }

/-- C9 witness: the full scenario evaluated on a concrete protagonist. -/
theorem checkVictory_spec_witness :
    (checkVictoryConditions triumphantPlayer).1 = true ∧
    (checkVictoryConditions triumphantPlayer).2.1 = "complete" ∧
    (checkVictoryConditions triumphantPlayer).2.2.length ≥ 4 :=
  (checkVictory_spec triumphantPlayer).2.2.2.2.2.2.2.2.2
    (by decide) (by decide) (by decide) (by decide)

/-! ### C10 — damage accounting -/

/-- Helper: one ongoing-effect step never lowers the cumulative
damage-taken counter. -/
theorem tickEffect_totalDamageTaken_le (p : Player) (n : String) :
    p.totalDamageTaken ≤ (p.tickEffect n).totalDamageTaken := by
  unfold Player.tickEffect
  split_ifs with h1 h2
  · show p.totalDamageTaken ≤
      p.totalDamageTaken + max 1 (3 - p.defense)
    exact le_add_of_nonneg_right
      (le_trans zero_le_one (le_max_left 1 (3 - p.defense)))
  · exact le_refl _
  · exact le_refl _

/-- Helper: the status-effect loop never lowers the cumulative
damage-taken counter. -/
theorem runEffects_totalDamageTaken_mono (l : Effects) (p : Player) :
    p.totalDamageTaken ≤ (Player.runEffects p l).1.totalDamageTaken := by
  induction l generalizing p with
  | nil => exact le_refl _
  | cons nd rest ih =>
    obtain ⟨n, d⟩ := nd
    by_cases h : d ≤ 1
    · simpa [Player.runEffects, h] using ih p
    · simp only [Player.runEffects, h, if_false, if_neg h]
      exact le_trans (tickEffect_totalDamageTaken_le p n)
        (ih (p.tickEffect n))

/-- C10: every protagonist `take_damage` call adds exactly the returned
actual damage (always ≥ 1) to `total_damage_taken`; a status-effect tick
never lowers the counter and a still-active poison strictly raises it (so
a counter of 0 after an encounter means `take_damage` was never invoked);
and any positive counter forfeits the `Untouchable` (zero-damage)
achievement. -/
theorem damageAccounting_spec (p : Player) (damage : Int) (d : Nat) :
    ((p.takeDamage damage).1.totalDamageTaken =
        p.totalDamageTaken + (p.takeDamage damage).2 ∧
      1 ≤ (p.takeDamage damage).2) ∧
    p.totalDamageTaken ≤ (p.updateStatusEffects).1.totalDamageTaken ∧
    (p.statusEffects = [("poisoned", d)] → 2 ≤ d →
      p.totalDamageTaken + 1 ≤
        (p.updateStatusEffects).1.totalDamageTaken) ∧
    (1 ≤ p.totalDamageTaken →
      "Untouchable" ∉ (checkVictoryConditions p).2.2) := by
  refine ⟨⟨rfl, le_max_left 1 _⟩, ?_, ?_, ?_⟩
  · exact runEffects_totalDamageTaken_mono p.statusEffects p
  · intro hse hd
    have hne : ¬ (d ≤ 1) := by omega
    have heq : (p.updateStatusEffects).1.totalDamageTaken =
        p.totalDamageTaken + max 1 (3 - p.defense) := by
      simp [Player.updateStatusEffects, hse, Player.runEffects, hne,
        Player.tickEffect, Player.takeDamage]
    rw [heq]
    exact add_le_add_left (le_max_left 1 (3 - p.defense)) _
  · intro hpos
    have hne : ¬ p.totalDamageTaken = 0 := by omega
    rw [checkVictory_achievements]
    simp [List.mem_append, mem_ite_singleton, hne]

/-- A protagonist carrying an active poison with 3 turns left. -/
def poisonedPlayer : Player :=
  { basePlayer with statusEffects := [("poisoned", 3)] }

/-- C10 witness: a poison tick on a concrete protagonist strictly raises
the damage-taken counter, and a protagonist with 1 damage taken is not
`Untouchable`. -/
theorem damageAccounting_spec_witness :
    (poisonedPlayer.totalDamageTaken + 1 ≤
      (poisonedPlayer.updateStatusEffects).1.totalDamageTaken) ∧
    "Untouchable" ∉
      (checkVictoryConditions
        { basePlayer with totalDamageTaken := 1 }).2.2 :=
  ⟨(damageAccounting_spec poisonedPlayer 0 3).2.2.1 rfl (by decide),
   (damageAccounting_spec { basePlayer with totalDamageTaken := 1 } 0
      3).2.2.2 (by decide)⟩

/-! ### C1 — termination evaluation after each action -/

/-- Helper: the ongoing-effect step keeps hp non-negative (damage clamps
at 0; healing clamps between 0 and max hp). -/
theorem tickEffect_hp_nonneg (p : Player) (n : String) (hhp : 0 ≤ p.hp)
    (hmax : 0 ≤ p.maxHp) : 0 ≤ (p.tickEffect n).hp := by
  unfold Player.tickEffect
  split_ifs
  · exact le_max_left 0 _
  · exact le_min hmax (by omega)
  · exact hhp

/-- Helper: the ongoing-effect step never changes max hp. -/
theorem tickEffect_maxHp (p : Player) (n : String) :
    (p.tickEffect n).maxHp = p.maxHp := by
  unfold Player.tickEffect
  split_ifs <;> rfl

/-- Helper: the status-effect loop keeps hp non-negative. -/
theorem runEffects_hp_nonneg (l : Effects) (p : Player) (hhp : 0 ≤ p.hp)
    (hmax : 0 ≤ p.maxHp) : 0 ≤ (Player.runEffects p l).1.hp := by
  induction l generalizing p with
  | nil => exact hhp
  | cons nd rest ih =>
    obtain ⟨n, d⟩ := nd
    by_cases h : d ≤ 1
    · simpa [Player.runEffects, h] using ih p hhp hmax
    · simp only [Player.runEffects, h, if_neg h]
      exact ih (p.tickEffect n) (tickEffect_hp_nonneg p n hhp hmax)
        ((tickEffect_maxHp p n).symm ▸ hmax)

/-- C1: after the status tick of a completed action in an `Active`
encounter, termination is evaluated once — protagonist hp 0 concludes the
encounter with winner `"enemy"` unless the adversary is simultaneously at
0 (then `"draw"`); adversary hp 0 alone concludes it with winner
`"player"`; otherwise the turn counter increments by one and the
encounter stays `Active` with no winner. -/
theorem endTurn_termination (c : Combat)
    (hact : c.combatActive = true)
    (hphp : 0 ≤ c.player.hp) (hpmax : 0 ≤ c.player.maxHp)
    (hehp : 0 ≤ c.enemy.hp) :
    ((c.player.updateStatusEffects).1.hp = 0 →
      c.endTurn.combatActive = false ∧
      c.endTurn.getWinner =
        some (if (c.enemy.updateStatusEffects).1.hp = 0 then "draw"
              else "enemy")) ∧
    ((c.player.updateStatusEffects).1.hp ≠ 0 →
      (c.enemy.updateStatusEffects).1.hp = 0 →
      c.endTurn.combatActive = false ∧
      c.endTurn.getWinner = some "player") ∧
    ((c.player.updateStatusEffects).1.hp ≠ 0 →
      (c.enemy.updateStatusEffects).1.hp ≠ 0 →
      c.endTurn.combatActive = true ∧
      c.endTurn.currentTurn = c.currentTurn + 1 ∧
      c.endTurn.getWinner = none) := by
  have hppos : 0 ≤ (c.player.updateStatusEffects).1.hp :=
    runEffects_hp_nonneg c.player.statusEffects c.player hphp hpmax
  have hepos : 0 ≤ (c.enemy.updateStatusEffects).1.hp := hehp
  refine ⟨?_, ?_, ?_⟩
  · intro hz
    have hdead : ¬ ((c.player.updateStatusEffects).1.hp > 0) := by omega
    by_cases hez : (c.enemy.updateStatusEffects).1.hp = 0
    · simp [Combat.endTurn, Combat.logMessage, Combat.getWinner,
        Combat.isCombatOver, Player.isAlive, Enemy.isAlive, hdead, hez,
        hz]
    · have hea : (c.enemy.updateStatusEffects).1.hp > 0 := by omega
      simp [Combat.endTurn, Combat.logMessage, Combat.getWinner,
        Combat.isCombatOver, Player.isAlive, Enemy.isAlive, hdead, hez,
        hz, hea]
  · intro hpnz hez
    have hpa : (c.player.updateStatusEffects).1.hp > 0 := by omega
    have hed : ¬ ((c.enemy.updateStatusEffects).1.hp > 0) := by omega
    simp [Combat.endTurn, Combat.logMessage, Combat.handleVictory,
      Combat.getWinner, Combat.isCombatOver, Player.isAlive,
      Enemy.isAlive, hpa, hed]
    split_ifs <;>
      simp [Combat.logMessage, Combat.getWinner, Combat.isCombatOver,
        Player.isAlive, Enemy.isAlive, hpa, hed]
  · intro hpnz henz
    have hpa : (c.player.updateStatusEffects).1.hp > 0 := by omega
    have hea : (c.enemy.updateStatusEffects).1.hp > 0 := by omega
    simp [Combat.endTurn, Combat.logMessage, Combat.getWinner,
      Combat.isCombatOver, Player.isAlive, Enemy.isAlive, hpa, hea, hact]

/-- C1 witness: in a fresh encounter with no status effects and both
sides alive, the end-of-turn phase keeps the encounter active, reports no
winner, and advances the turn counter from 0 to 1. -/
theorem endTurn_termination_witness :
    baseCombat.endTurn.combatActive = true ∧
    baseCombat.endTurn.currentTurn = baseCombat.currentTurn + 1 ∧
    baseCombat.endTurn.getWinner = none :=
  (endTurn_termination baseCombat (by decide) (by decide) (by decide)
    (by decide)).2.2 (by decide) (by decide)

/-! ### C3 — decision-policy totality and validity -/

/-- Helper: the aggressive policy only proposes abilities it can use. -/
theorem aggressiveAi_valid (e : Enemy) :
    e.aggressiveAi = .attack ∨
    ∃ a, e.aggressiveAi = .ability a ∧ e.canUseAbility a = true := by
  unfold Enemy.aggressiveAi
  split_ifs with h1 h2
  · exact Or.inr ⟨_, rfl, h1⟩
  · exact Or.inr ⟨_, rfl, h2⟩
  · exact Or.inl rfl

/-- Helper: the defensive policy only proposes abilities it can use. -/
theorem defensiveAi_valid (e : Enemy) :
    e.defensiveAi = .attack ∨
    ∃ a, e.defensiveAi = .ability a ∧ e.canUseAbility a = true := by
  unfold Enemy.defensiveAi
  split_ifs with h1 h2
  · exact Or.inr ⟨_, rfl, h1.2⟩
  · exact Or.inr ⟨_, rfl, h2.2⟩
  · exact Or.inl rfl

/-- Helper: the tactical policy only proposes abilities it can use. -/
theorem tacticalAi_valid (e : Enemy) (playerHp playerFocus : Int) :
    e.tacticalAi playerHp playerFocus = .attack ∨
    ∃ a, e.tacticalAi playerHp playerFocus = .ability a ∧
      e.canUseAbility a = true := by
  unfold Enemy.tacticalAi
  split_ifs with h1 h2 h3 h4
  · exact Or.inr ⟨_, rfl, h1.2⟩
  · exact Or.inr ⟨_, rfl, h2.2⟩
  · exact Or.inr ⟨_, rfl, h3.2⟩
  · exact Or.inr ⟨_, rfl, h4.2⟩
  · exact Or.inl rfl

/-- Helper: the hit-and-run policy only proposes abilities it can use. -/
theorem hitAndRunAi_valid (e : Enemy) :
    e.hitAndRunAi = .attack ∨
    ∃ a, e.hitAndRunAi = .ability a ∧ e.canUseAbility a = true := by
  unfold Enemy.hitAndRunAi
  split_ifs with h1
  · exact Or.inr ⟨_, rfl, h1⟩
  · exact Or.inl rfl

/-- Helper: the basic policy draws from the filtered list of currently
usable abilities, so any ability it proposes is usable. -/
theorem basicAi_valid (e : Enemy) (roll : Bool) (pick : Nat) :
    e.basicAi roll pick = .attack ∨
    ∃ a, e.basicAi roll pick = .ability a ∧ e.canUseAbility a = true := by
  unfold Enemy.basicAi
  split_ifs with h1 h2
  · refine Or.inr ⟨_, rfl, ?_⟩
    have hmem := List.get_mem
      (e.abilities.filter (fun a => e.canUseAbility a))
      (pick % (e.abilities.filter (fun a => e.canUseAbility a)).length)
      (Nat.mod_lt _ (List.length_pos.mpr h2))
    exact (List.mem_filter.mp hmem).2
  · exact Or.inl rfl
  · exact Or.inl rfl

/-- Helper: the five-way pattern dispatch only proposes usable
abilities. -/
theorem dispatchAi_valid (e : Enemy) (playerHp playerFocus : Int)
    (roll : Bool) (pick : Nat) :
    e.dispatchAi playerHp playerFocus roll pick = .attack ∨
    ∃ a, e.dispatchAi playerHp playerFocus roll pick = .ability a ∧
      e.canUseAbility a = true := by
  unfold Enemy.dispatchAi
  split_ifs
  · exact aggressiveAi_valid e
  · exact defensiveAi_valid e
  · exact tacticalAi_valid e playerHp playerFocus
  · exact hitAndRunAi_valid e
  · exact basicAi_valid e roll pick

/-- Helper: the base `choose_action` routine only proposes abilities that
are usable in the state it returns. -/
theorem chooseActionBase_valid (e : Enemy)
    (playerHp playerDefense playerFocus : Int) (roll : Bool) (pick : Nat) :
    (e.chooseActionBase playerHp playerDefense playerFocus roll
      pick).2 = .attack ∨
    ∃ a, (e.chooseActionBase playerHp playerDefense playerFocus roll
        pick).2 = .ability a ∧
      (e.chooseActionBase playerHp playerDefense playerFocus roll
        pick).1.canUseAbility a = true :=
  dispatchAi_valid _ playerHp playerFocus roll pick

/-- C3 counterexample: the claim says every variant's `choose_action`
only returns ability actions that pass `can_use_ability`; the steam golem
on a pressure-release turn returns `steam_blast` with no check — here the
golem has no abilities and no focus, so `can_use_ability` is false for
the returned action. -/
theorem chooseAction_golem_counterexample :
    (golemEnemy.chooseAction 100 5 5 false 0).2 = .ability "steam_blast" ∧
    (golemEnemy.chooseAction 100 5 5 false
      0).1.canUseAbility "steam_blast" = false := by decide

/-- C3 (amended): for every adversary except a steam golem on a
pressure-release turn, `choose_action` is total — it returns the basic
attack or an ability that passes the catalog-membership, focus-cost and
cooldown checks in the updated state at the moment of selection; the
steam golem's override returns `steam_blast` unconditionally once its
pressure reaches 3. -/
theorem chooseAction_valid (e : Enemy)
    (playerHp playerDefense playerFocus : Int) (roll : Bool) (pick : Nat)
    (h : e.kind ≠ .steamGolem ∨ e.steamPressure + 1 < 3) :
    (e.chooseAction playerHp playerDefense playerFocus roll
      pick).2 = .attack ∨
    ∃ a, (e.chooseAction playerHp playerDefense playerFocus roll
        pick).2 = .ability a ∧
      (e.chooseAction playerHp playerDefense playerFocus roll
        pick).1.canUseAbility a = true := by
  by_cases hk : e.kind = EnemyKind.steamGolem
  · have hp3 : e.steamPressure + 1 < 3 := by
      rcases h with h | h
      · exact absurd hk h
      · exact h
    have hcond :
        ¬ (({ e with steamPressure := e.steamPressure + 1 } :
          Enemy).steamPressure ≥ (3 : Int)) := by
      show ¬ (e.steamPressure + 1 ≥ (3 : Int))
      omega
    simp only [Enemy.chooseAction, hk]
    rw [if_neg hcond]
    exact
      chooseActionBase_valid _ playerHp playerDefense playerFocus roll pick
  · have heq : e.chooseAction playerHp playerDefense playerFocus roll
        pick = e.chooseActionBase playerHp playerDefense playerFocus roll
        pick := by
      unfold Enemy.chooseAction
      cases hke : e.kind
      case steamGolem => exact absurd hke hk
      all_goals rfl
    rw [heq]
    exact
      chooseActionBase_valid e playerHp playerDefense playerFocus roll pick

/-- An aggressive adversary with `power_strike` ready. -/
def aggroEnemy : Enemy :=
  { baseEnemy with
    aiPattern := "aggressive", abilities := ["power_strike"] }

/-- C3 witness: a concrete aggressive adversary's decision is valid. -/
theorem chooseAction_valid_witness :
    (aggroEnemy.chooseAction 100 5 5 false 0).2 = .attack ∨
    ∃ a, (aggroEnemy.chooseAction 100 5 5 false 0).2 = .ability a ∧
      (aggroEnemy.chooseAction 100 5 5 false
        0).1.canUseAbility a = true :=
  chooseAction_valid aggroEnemy 100 5 5 false 0 (Or.inl (by decide))

/-! ### C4 — status-effect ticking -/

/-- Helper: the protagonist's status loop decrements every counter by 1,
keeps the survivors in order, and collects exactly the names whose
decremented counter reached 0. -/
theorem runEffects_table (l : Effects) (p : Player) :
    (Player.runEffects p l).2.1 =
      l.filterMap (fun nd => if nd.2 ≤ 1 then none
        else some (nd.1, nd.2 - 1)) ∧
    (Player.runEffects p l).2.2 =
      (l.filter (fun nd => nd.2 ≤ 1)).map Prod.fst := by
  induction l generalizing p with
  | nil => exact ⟨rfl, rfl⟩
  | cons nd rest ih =>
    obtain ⟨n, d⟩ := nd
    by_cases h : d ≤ 1
    · simpa [Player.runEffects, h] using ih p
    · simpa [Player.runEffects, h] using ih (p.tickEffect n)

/-- An encounter at the adversary's turn whose adversary carries a
5-turn berserker status and has no usable abilities. -/
def doubleTickCombat : Combat :=
  { baseCombat with
    turnQueue := ["enemy", "player"],
    enemy := { baseEnemy with
      aiPattern := "hit_and_run", statusEffects := [("berserker", 5)] } }

/-- A protagonist carrying a poison with exactly 1 turn left. -/
def poisonedOncePlayer : Player :=
  { basePlayer with statusEffects := [("poisoned", 1)] }

/-- C4 counterexample: the claim says a damage-over-time effect inflicts
its damage before its counter is decremented; in the code the counter is
decremented first and the periodic damage only applies while the
decremented counter is still positive, so a poison with 1 turn left
expires without dealing its final tick of damage; and on an adversary
action the adversary's effects tick twice (once inside `choose_action`,
once at end of turn), so one action takes a 5-turn effect to 3. -/
theorem statusTick_counterexample :
    ((poisonedOncePlayer.updateStatusEffects).1.hp =
        poisonedOncePlayer.hp ∧
      (poisonedOncePlayer.updateStatusEffects).1.totalDamageTaken = 0 ∧
      (poisonedOncePlayer.updateStatusEffects).1.statusEffects = [] ∧
      (poisonedOncePlayer.updateStatusEffects).2 = ["poisoned"]) ∧
    (doubleTickCombat.enemyTurn false 0).1.enemy.statusEffects =
      [("berserker", 3)] := by decide

/-- C4 (amended): each tick decrements every counter by exactly 1 and
removes, and reports as expired, exactly the effects whose counter
reached 0 (the expiry note goes to the console, not the combat message
log, which is untouched when combat continues); a periodic effect applies
its fixed amount after the decrement and only while the decremented
counter is still positive; the protagonist's effects tick exactly once
per completed action (at end of turn), while the adversary's effects are
ticked both inside its action selection and at end of turn — twice per
adversary action. -/
theorem statusTick_spec (c : Combat) (p : Player) (e : Enemy)
    (playerHp playerDefense playerFocus : Int) (roll : Bool) (pick : Nat)
    (d : Nat) :
    ((p.updateStatusEffects).1.statusEffects =
      p.statusEffects.filterMap (fun nd => if nd.2 ≤ 1 then none
        else some (nd.1, nd.2 - 1)) ∧
     (p.updateStatusEffects).2 =
      (p.statusEffects.filter (fun nd => nd.2 ≤ 1)).map Prod.fst) ∧
    ((e.updateStatusEffects).1.statusEffects =
      e.statusEffects.filterMap (fun nd => if nd.2 ≤ 1 then none
        else some (nd.1, nd.2 - 1)) ∧
     (e.updateStatusEffects).2 =
      (e.statusEffects.filter (fun nd => nd.2 ≤ 1)).map Prod.fst) ∧
    ((e.chooseActionBase playerHp playerDefense playerFocus roll
      pick).1.statusEffects =
        e.statusEffects.filterMap (fun nd => if nd.2 ≤ 1 then none
          else some (nd.1, nd.2 - 1))) ∧
    (c.endTurn.enemy = (c.enemy.updateStatusEffects).1 ∧
     c.endTurn.player.statusEffects =
      (c.player.updateStatusEffects).1.statusEffects) ∧
    (0 < (c.player.updateStatusEffects).1.hp →
      0 < (c.enemy.updateStatusEffects).1.hp →
      c.endTurn.combatLog = c.combatLog) ∧
    (p.statusEffects = [("poisoned", d)] →
      (2 ≤ d →
        (p.updateStatusEffects).1.hp =
          max 0 (p.hp - max 1 (3 - p.defense)) ∧
        (p.updateStatusEffects).1.totalDamageTaken =
          p.totalDamageTaken + max 1 (3 - p.defense) ∧
        (p.updateStatusEffects).1.statusEffects =
          [("poisoned", d - 1)]) ∧
      (d ≤ 1 →
        (p.updateStatusEffects).1.hp = p.hp ∧
        (p.updateStatusEffects).1.totalDamageTaken =
          p.totalDamageTaken ∧
        (p.updateStatusEffects).1.statusEffects = [])) := by
  refine ⟨?_, ⟨rfl, rfl⟩, rfl, ⟨?_, ?_⟩, ?_, ?_⟩
  · exact runEffects_table p.statusEffects p
  · unfold Combat.endTurn
    dsimp only
    split_ifs <;> simp [Combat.logMessage, Combat.handleVictory] <;>
      split_ifs <;> rfl
  · unfold Combat.endTurn
    dsimp only
    split_ifs <;> simp [Combat.logMessage, Combat.handleVictory] <;>
      split_ifs <;> rfl
  · intro hpa hea
    have h1 : (c.player.updateStatusEffects).1.isAlive = true := by
      simp [Player.isAlive, hpa]
    have h2 : (c.enemy.updateStatusEffects).1.isAlive = true := by
      simp [Enemy.isAlive, hea]
    simp [Combat.endTurn, h1, h2]
  · intro hse
    constructor
    · intro hd
      have h1 : ¬ (d ≤ 1) := by omega
      refine ⟨?_, ?_, ?_⟩ <;>
        simp [Player.updateStatusEffects, hse, Player.runEffects, h1,
          Player.tickEffect, Player.takeDamage]
    · intro hd
      refine ⟨?_, ?_, ?_⟩ <;>
        simp [Player.updateStatusEffects, hse, Player.runEffects, hd]

/-- C4 witness: a 3-turn poison on a concrete protagonist at 100 hp and
defense 5 deals its clamped 1 damage and drops to 2 turns. -/
theorem statusTick_spec_witness :
    (poisonedPlayer.updateStatusEffects).1.hp =
      max 0 (poisonedPlayer.hp - max 1 (3 - poisonedPlayer.defense)) ∧
    (poisonedPlayer.updateStatusEffects).1.totalDamageTaken =
      poisonedPlayer.totalDamageTaken +
        max 1 (3 - poisonedPlayer.defense) ∧
    (poisonedPlayer.updateStatusEffects).1.statusEffects =
      [("poisoned", 2)] :=
  ((statusTick_spec baseCombat poisonedPlayer baseEnemy 100 5 5 false 0
    3).2.2.2.2.2 rfl).1 (by decide)

/-! ### C6 — cooldown lifecycle -/

/-- Helper: ability execution never touches the cooldown table or the
focus pool. -/
theorem executeAbility_cooldowns_focus (e : Enemy) (name : String) :
    (e.executeAbility name).1.abilityCooldowns = e.abilityCooldowns ∧
    (e.executeAbility name).1.focus = e.focus := by
  unfold Enemy.executeAbility
  split_ifs <;> exact ⟨rfl, rfl⟩

/-- Helper: the unfolding of one lookup step. -/
theorem lookupStr_cons {α : Type} (n : String) (x : α)
    (rest : List (String × α)) (k : String) :
    lookupStr ((n, x) :: rest) k =
      (if n = k then some x else lookupStr rest k) := rfl

/-- Helper: the unfolding of one cooldown-tick step. -/
theorem tickCooldowns_cons (n : String) (w : Int) (tl : Cooldowns) :
    tickCooldowns ((n, w) :: tl) =
      (if w - 1 ≤ 0 then tickCooldowns tl
       else (n, w - 1) :: tickCooldowns tl) := by
  by_cases hv : w - 1 ≤ 0
  · have hv2 : w ≤ 1 := by omega
    simp [tickCooldowns, List.filterMap_cons, hv, hv2]
  · have hv2 : ¬ (w ≤ 1) := by omega
    simp [tickCooldowns, List.filterMap_cons, hv, hv2]

/-- Helper: dict lookup after an in-place overwrite of an existing key. -/
theorem lookupStr_map_set (l : Cooldowns) (k : String) (v : Int)
    (h : l.any (fun p => p.1 = k) = true) :
    lookupStr (l.map (fun p => if p.1 = k then (k, v) else p)) k =
      some v := by
  induction l with
  | nil => simp at h
  | cons hd tl ih =>
    obtain ⟨n, w⟩ := hd
    by_cases hk : n = k
    · subst hk
      simp [List.map_cons, lookupStr_cons]
    · have h2 : tl.any (fun p => p.1 = k) = true := by
        simpa [List.any_cons, hk] using h
      simp [List.map_cons, hk, lookupStr_cons, ih h2]

/-- Helper: dict lookup after appending a fresh key. -/
theorem lookupStr_append_self (l : Cooldowns) (k : String) (v : Int)
    (h : l.any (fun p => p.1 = k) = false) :
    lookupStr (l ++ [(k, v)]) k = some v := by
  induction l with
  | nil => simp [lookupStr_cons]
  | cons hd tl ih =>
    obtain ⟨n, w⟩ := hd
    have hk : ¬ (n = k) := by
      intro hh
      simp [List.any_cons, hh] at h
    have h2 : tl.any (fun p => p.1 = k) = false := by
      simpa [List.any_cons, hk] using h
    simp [List.cons_append, lookupStr_cons, hk, ih h2]

/-- Helper: dict assignment makes the assigned value visible. -/
theorem lookupStr_setKeyInt (l : Cooldowns) (k : String) (v : Int) :
    lookupStr (setKeyInt l k v) k = some v := by
  unfold setKeyInt
  split_ifs with h
  · exact lookupStr_map_set l k v h
  · simp only [Bool.not_eq_true] at h
    exact lookupStr_append_self l k v h

/-- Helper: the cooldown tick never introduces keys, so lookups of
absent keys still miss. -/
theorem lookupStr_tickCooldowns_none (l : Cooldowns) (k : String)
    (h : k ∉ l.map Prod.fst) : lookupStr (tickCooldowns l) k = none := by
  induction l with
  | nil => rfl
  | cons hd tl ih =>
    obtain ⟨n, w⟩ := hd
    have hk : ¬ (n = k) := by
      intro hh
      exact h (by simp [hh])
    have h2 : k ∉ tl.map Prod.fst := by
      intro hm
      exact h (by simp [hm])
    rw [tickCooldowns_cons]
    by_cases hv : w - 1 ≤ 0
    · rw [if_pos hv]
      exact ih h2
    · rw [if_neg hv, lookupStr_cons, if_neg hk]
      exact ih h2

/-- Helper: under unique keys, one cooldown tick decrements the looked-up
counter by exactly 1, deleting it when it reaches 0. -/
theorem lookupStr_tickCooldowns (l : Cooldowns) (k : String)
    (hnd : (l.map Prod.fst).Nodup) :
    lookupStr (tickCooldowns l) k =
      (match lookupStr l k with
       | some w => if w - 1 ≤ 0 then none else some (w - 1)
       | none => none) := by
  induction l with
  | nil => rfl
  | cons hd tl ih =>
    obtain ⟨n, w⟩ := hd
    simp only [List.map_cons, List.nodup_cons] at hnd
    rw [tickCooldowns_cons, lookupStr_cons]
    by_cases hv : w - 1 ≤ 0
    · rw [if_pos hv]
      by_cases hk : n = k
      · subst hk
        rw [if_pos rfl, lookupStr_tickCooldowns_none tl n hnd.1]
        simp [hv]
      · rw [if_neg hk]
        exact ih hnd.2
    · rw [if_neg hv, lookupStr_cons]
      by_cases hk : n = k
      · subst hk
        rw [if_pos rfl, if_pos rfl]
        simp [hv]
      · rw [if_neg hk, if_neg hk]
        exact ih hnd.2

/-- A steam golem one step from a pressure release that still has a
2-turn cooldown recorded on `power_strike`. -/
def golemCooldownEnemy : Enemy :=
  { golemEnemy with abilityCooldowns := [("power_strike", 2)] }

/-- C6 counterexample: the claim says a recorded cooldown strictly
decreases by exactly 1 on each subsequent adversary turn; on a steam
golem pressure-release turn the override bypasses the base routine and
the counter does not decrease at all. -/
theorem cooldown_tick_counterexample :
    (golemCooldownEnemy.chooseAction 100 5 5 false 0).2 =
      .ability "steam_blast" ∧
    (golemCooldownEnemy.chooseAction 100 5 5 false
      0).1.abilityCooldowns = [("power_strike", 2)] := by decide

/-- C6 (amended): a successful ability use records the ability's
configured cooldown; each adversary turn that goes through the base
decision routine decrements every recorded counter by exactly 1 as its
first step, deleting counters that reach 0; an ability whose counter is
positive is unusable, and once its counter is gone usability is exactly
catalog membership plus the focus check — but a steam golem
pressure-release turn skips the decrement entirely. -/
theorem cooldown_spec (e : Enemy) (name : String) (v : Int)
    (playerHp playerDefense playerFocus : Int) (roll : Bool)
    (pick : Nat) :
    (e.canUseAbility name = true →
      lookupStr (e.useAbility name).1.abilityCooldowns name =
        some (abilityCooldownLength name) ∧
      (e.useAbility name).1.focus = e.focus - abilityFocusCost name) ∧
    ((e.abilityCooldowns.map Prod.fst).Nodup →
      lookupStr (e.chooseActionBase playerHp playerDefense playerFocus
          roll pick).1.abilityCooldowns name =
        (match lookupStr e.abilityCooldowns name with
         | some w => if w - 1 ≤ 0 then none else some (w - 1)
         | none => none)) ∧
    (lookupStr e.abilityCooldowns name = some v → 0 < v →
      e.canUseAbility name = false) ∧
    (lookupStr e.abilityCooldowns name = none →
      (e.canUseAbility name = true ↔
        name ∈ e.abilities ∧ abilityFocusCost name ≤ e.focus)) ∧
    (e.kind = .steamGolem → 3 ≤ e.steamPressure + 1 →
      (e.chooseAction playerHp playerDefense playerFocus roll
        pick).1.abilityCooldowns = e.abilityCooldowns) := by
  refine ⟨?_, ?_, ?_, ?_, ?_⟩
  · intro h
    unfold Enemy.useAbility
    rw [if_neg (by simp [h])]
    refine ⟨?_, ?_⟩
    · rw [(executeAbility_cooldowns_focus _ name).1]
      exact lookupStr_setKeyInt _ _ _
    · rw [(executeAbility_cooldowns_focus _ name).2]
  · intro hnd
    exact lookupStr_tickCooldowns e.abilityCooldowns name hnd
  · intro hv hpos
    unfold Enemy.canUseAbility
    by_cases hmem : name ∈ e.abilities
    · rw [if_neg (not_not_intro hmem), hv]
      simp [hpos]
    · rw [if_pos hmem]
  · intro hnone
    unfold Enemy.canUseAbility
    by_cases hmem : name ∈ e.abilities
    · rw [if_neg (not_not_intro hmem), hnone]
      simp [hmem, ge_iff_le]
    · rw [if_pos hmem]
      simp [hmem]
  · intro hk hp3
    have hcond : (({ e with steamPressure := e.steamPressure + 1 } :
        Enemy).steamPressure ≥ (3 : Int)) := by
      show e.steamPressure + 1 ≥ (3 : Int)
      omega
    simp only [Enemy.chooseAction, hk]
    rw [if_pos hcond]

/-- A base adversary with `power_strike` catalogued and full focus. -/
def strikerEnemy : Enemy :=
  { baseEnemy with abilities := ["power_strike"] }

/-- C6 witness: on a concrete adversary, using `power_strike` records its
2-turn cooldown and debits 2 focus; one turn later the counter reads 1
and the ability is still blocked; with no counter recorded usability is
membership plus the focus check; and a concrete pressure-release golem
turn leaves the table untouched. -/
theorem cooldown_spec_witness :
    (lookupStr (strikerEnemy.useAbility
        "power_strike").1.abilityCooldowns "power_strike" =
      some (abilityCooldownLength "power_strike") ∧
     (strikerEnemy.useAbility "power_strike").1.focus =
      strikerEnemy.focus - abilityFocusCost "power_strike") ∧
    lookupStr ({ strikerEnemy with
        abilityCooldowns := [("power_strike", 2)] }.chooseActionBase
        100 5 5 false 0).1.abilityCooldowns "power_strike" =
      some 1 ∧
    ({ strikerEnemy with
        abilityCooldowns :=
          [("power_strike", 2)] }.canUseAbility "power_strike") =
      false ∧
    (strikerEnemy.canUseAbility "power_strike" = true ↔
      "power_strike" ∈ strikerEnemy.abilities ∧
        abilityFocusCost "power_strike" ≤ strikerEnemy.focus) ∧
    (golemCooldownEnemy.chooseAction 100 5 5 false
      0).1.abilityCooldowns = golemCooldownEnemy.abilityCooldowns :=
  ⟨(cooldown_spec strikerEnemy "power_strike" 2 100 5 5 false 0).1
      (by decide),
   by
    have h := (cooldown_spec
      { strikerEnemy with abilityCooldowns := [("power_strike", 2)] }
      "power_strike" 2 100 5 5 false 0).2.1 (by decide)
    rw [h]
    decide,
   (cooldown_spec
      { strikerEnemy with abilityCooldowns := [("power_strike", 2)] }
      "power_strike" 2 100 5 5 false 0).2.2.1 (by decide) (by decide),
   (cooldown_spec strikerEnemy "power_strike" 2 100 5 5 false
      0).2.2.2.1 (by decide),
   (cooldown_spec golemCooldownEnemy "power_strike" 2 100 5 5 false
      0).2.2.2.2 (by decide) (by decide)⟩

end Aethergate
